import Mathlib

/-!
# Verification of the browser-ext build toolchain core

Shallow embedding of the core logic of the `browser-ext` repository:

* `replaceFileExtension` / `processManifest` (`packages/core/src/plugins/manifest.ts`),
* `getEntry` / `getBackgroundEntries` / `getContentScriptEntries` /
  `getExtensionPageEntries` / `discoverEntries` (`packages/core/src/plugins/entries.ts`),
* `notifyClientsToReload` and the `shutdown` handler
  (`packages/scripts/src/scripts/build.ts` dev script),
* the timestamp-polling hot-reload client injected by
  `browserExtHotReloadPlugin` (`packages/core/src/plugins/hot-reload.ts`).

JavaScript strings are modelled through the underlying character list of
`String`, so every operation is executable.  JavaScript truthiness of the
optional string fields is modelled explicitly (`none` for an absent field,
and the empty string is falsy).
-/

namespace BrowserExt


/-! ## Character-list string primitives

These model the JavaScript string operations used by the sources:
`startsWith`, anchored regex suffix tests, `includes`, and
first-occurrence `String.prototype.replace` with a string pattern. -/

/-- `listStartsWith s p` is true when `p` is an initial segment of `s`
(JS `String.prototype.startsWith`). -/
def listStartsWith : List Char → List Char → Bool
  | _, [] => true
  | [], _ :: _ => false
  | c :: cs, d :: ds => c == d && listStartsWith cs ds

/-- `listEndsWith s e` is true when `e` is a final segment of `s`. -/
def listEndsWith (s e : List Char) : Bool :=
  listStartsWith s.reverse e.reverse

/-- `listContains s p` is true when `p` occurs as a contiguous substring
of `s` (JS `String.prototype.includes`). -/
def listContains : List Char → List Char → Bool
  | [], p => listStartsWith [] p
  | c :: rest, p => listStartsWith (c :: rest) p || listContains rest p

/-- JS `s.startsWith(p)`. -/
def strStartsWith (s p : String) : Bool := listStartsWith s.data p.data

/-- `s` ends with the literal suffix `e` (used to model the anchored
regexes of the sources). -/
def strEndsWith (s e : String) : Bool := listEndsWith s.data e.data

/-- JS `s.includes(p)`. -/
def strContains (s p : String) : Bool := listContains s.data p.data

/-- Drop the last `n` characters of a string. -/
def strDropRight (s : String) (n : Nat) : String := ⟨s.data.take (s.data.length - n)⟩

/-! ## Extension rewriting (`packages/core/src/plugins/manifest.ts`) -/

/-- `replaceFileExtension` from `plugins/manifest.ts`:
`filePath.replace(/\.(jsx?|tsx?)$/, '.js')`.  The anchored regex matches
exactly when the path ends in `.js`, `.jsx`, `.ts` or `.tsx`; these four
suffixes are pairwise exclusive, so the grouping below is faithful.  The
match (the trailing extension) is replaced by `.js`; a path with no such
suffix is returned unchanged. -/
def replaceFileExtension (filePath : String) : String :=
  if strEndsWith filePath ".jsx" || strEndsWith filePath ".tsx" then
    strDropRight filePath 4 ++ ".js"
  else if strEndsWith filePath ".js" || strEndsWith filePath ".ts" then
    strDropRight filePath 3 ++ ".js"
  else filePath

/-- The test `/\.(jsx?|tsx?)$/.test(res)` used for
`web_accessible_resources` entries in `processManifest`. -/
def hasScriptExt (s : String) : Bool :=
  strEndsWith s ".jsx" || strEndsWith s ".tsx" || strEndsWith s ".js" || strEndsWith s ".ts"

/-- `default_popup.replace(/\.(jsx?|tsx?)$/, '.html')` from
`processManifest`'s action-key loop. -/
def replacePopupExtension (filePath : String) : String :=
  if strEndsWith filePath ".jsx" || strEndsWith filePath ".tsx" then
    strDropRight filePath 4 ++ ".html"
  else if strEndsWith filePath ".js" || strEndsWith filePath ".ts" then
    strDropRight filePath 3 ++ ".html"
  else filePath

/-! ## Manifest data model

The manifest fields `processManifest` touches, with `Option` marking
absent fields.  JavaScript truthiness on an optional string field
(`!manifest.name`, `if (serviceWorker)`, …) is `truthyStr`: an absent
field and the empty string are falsy.  A present array is always truthy
in JavaScript (even `[]`), so array-valued fields are tested with
`Option.isSome` semantics (`Option.map`). -/

/-- Truthiness of an optional JS string value. -/
def truthyStr : Option String → Bool
  | none => false
  | some s => !(s == "")

structure Background where
  service_worker : Option String
deriving DecidableEq

structure ContentScript where
  js : Option (List String)
  css : Option (List String)
deriving DecidableEq

structure WebAccessibleResource where
  resources : Option (List String)
deriving DecidableEq

structure ActionInfo where
  default_popup : Option String
deriving DecidableEq

structure Manifest where
  name : Option String
  version : Option String
  description : Option String
  background : Option Background
  content_scripts : Option (List ContentScript)
  web_accessible_resources : Option (List WebAccessibleResource)
  action : Option ActionInfo
  browser_action : Option ActionInfo
  page_action : Option ActionInfo
  dev_timestamp : Option Nat
deriving DecidableEq

/-- The fields of `package.json` read by `processManifest`.  The source
reads the file with `fs.readJSONSync` when it exists and uses `{}`
otherwise; the model takes the resulting object as a parameter (all
fields `none` for a missing file). -/
structure PackageJson where
  name : Option String
  version : Option String
  description : Option String
deriving DecidableEq

/-- The optional chain `manifest.background?.service_worker`. -/
def backgroundServiceWorker (m : Manifest) : Option String :=
  match m.background with
  | none => none
  | some b => b.service_worker

/-! ## `processManifest` (`packages/core/src/plugins/manifest.ts`) -/

/-- One backfill step of `processManifest`:
`if (!manifest.f && packageJson.f) manifest.f = packageJson.f`. -/
def backfillField (manifestVal pkgVal : Option String) : Option String :=
  if !truthyStr manifestVal && truthyStr pkgVal then pkgVal else manifestVal

/-- The `background.service_worker` rewrite:
`if (manifest.background?.service_worker) manifest.background.service_worker = replaceFileExtension(...)`. -/
def processBackground : Option Background → Option Background
  | none => none
  | some b =>
    if truthyStr b.service_worker then
      some { service_worker := b.service_worker.map replaceFileExtension }
    else some b

/-- The per-content-script rewrite: `js` and `css` arrays (when present)
are mapped through `replaceFileExtension`. -/
def processContentScript (cs : ContentScript) : ContentScript :=
  { js := cs.js.map (List.map replaceFileExtension)
    css := cs.css.map (List.map replaceFileExtension) }

/-- The per-resource test-and-rewrite of the `web_accessible_resources`
loop: `if (/\.(jsx?|tsx?)$/.test(res)) return replaceFileExtension(res); return res;`. -/
def rewriteResource (res : String) : String :=
  if hasScriptExt res then replaceFileExtension res else res

def processResource (r : WebAccessibleResource) : WebAccessibleResource :=
  { resources := r.resources.map (List.map rewriteResource) }

/-- The action-key rewrite:
`if (manifest[key]?.default_popup) manifest[key].default_popup = ....replace(/\.(jsx?|tsx?)$/, '.html')`. -/
def processAction : Option ActionInfo → Option ActionInfo
  | none => none
  | some a =>
    if truthyStr a.default_popup then
      some { default_popup := a.default_popup.map replacePopupExtension }
    else some a

/-- `processManifest(manifestContent, isDevelopment)` from
`plugins/manifest.ts`.  `packageJson` is the object read from
`package.json` and `now` is the value of `Date.now()` used for the
development timestamp (`manifest.__dev_timestamp`, modelled as the field
`dev_timestamp`). -/
def processManifest (manifestContent : Manifest) (packageJson : PackageJson)
    (isDevelopment : Bool) (now : Nat) : Manifest :=
  { name := backfillField manifestContent.name packageJson.name
    version := backfillField manifestContent.version packageJson.version
    description := backfillField manifestContent.description packageJson.description
    background := processBackground manifestContent.background
    content_scripts := manifestContent.content_scripts.map (List.map processContentScript)
    web_accessible_resources :=
      manifestContent.web_accessible_resources.map (List.map processResource)
    action := processAction manifestContent.action
    browser_action := processAction manifestContent.browser_action
    page_action := processAction manifestContent.page_action
    dev_timestamp := if isDevelopment then some now else manifestContent.dev_timestamp }

/-! ## Entry discovery (`packages/core/src/plugins/entries.ts`)

`getEntry(entryPath)` computes
`relativePath = paths.relative(entryPath)` (the path relative to the
project root), `parsedPath = path.parse(relativePath)`, and
`name = relativePath.replace(parsedPath.ext, '')`, then normalizes
`\` separators to `/` in both the name and the returned
`'./' + relativePath`.

The model takes the root-relative path directly as the input (for
root-relative paths without `..` segments, node's
`path.relative(process.cwd(), p)` is the identity), and models node's
posix `path.parse(...).ext`. -/

/-- The basename of a posix path: the part after the last `/`. -/
def basenameOf (p : List Char) : List Char :=
  (p.reverse.takeWhile (fun c => !(c == '/'))).reverse

/-- Node `path.parse(p).ext` (posix): the substring of the basename from
its last `.`, except that there is no extension when the basename has no
dot, when its only/last dot is its leading character (dotfiles such as
`.env`), or when the basename is exactly `..`. -/
def extOf (p : List Char) : List Char :=
  let base := basenameOf p
  let afterDot := base.reverse.takeWhile (fun c => !(c == '.'))
  if afterDot.length == base.length then []
  else if afterDot.length + 1 == base.length then []
  else if base == ['.', '.'] then []
  else '.' :: afterDot.reverse

/-- Remove the first occurrence of `pat` from `s`: JS
`s.replace(pat, '')` with a **string** pattern, which replaces only the
leftmost occurrence (and returns `s` unchanged when `pat` does not
occur). -/
def removeFirst (s pat : List Char) : List Char :=
  match s with
  | [] => []
  | c :: rest =>
    if listStartsWith (c :: rest) pat then (c :: rest).drop pat.length
    else c :: removeFirst rest pat

/-- `.replace(/\\/g, '/')`: normalize path separators. -/
def normalizeSeps (p : List Char) : List Char :=
  p.map (fun c => if c == '\\' then '/' else c)

structure Entry where
  name : String
  path : String
deriving DecidableEq

/-- `getEntry` from `plugins/entries.ts`, on the root-relative path. -/
def getEntry (relativePath : String) : Entry :=
  { name := ⟨normalizeSeps (removeFirst relativePath.data (extOf relativePath.data))⟩
    path := "./" ++ ⟨normalizeSeps relativePath.data⟩ }

/-- The entry name as claim C4 describes it: the root-relative path with
its file extension stripped **from the end** and separators normalized.
Stated from the claim's words, for comparison with `getEntry`. -/
def claimedEntryName (relativePath : String) : String :=
  ⟨normalizeSeps
    (relativePath.data.take (relativePath.data.length - (extOf relativePath.data).length))⟩

/-! ## Entry maps as JavaScript objects

`entries[entry.name] = entry.path` on a plain JS object: keys keep their
first-insertion order, and writing an existing key updates its value in
place.  An `EntryMap` is the association list of a JS object in key
order. -/

/-- JS property read `entries[name]` (first occurrence; keys are unique
in every object built by `insertEntry`). -/
def jsGet (name : String) : List (String × String) → Option String
  | [] => none
  | p :: rest => if p.1 == name then some p.2 else jsGet name rest

/-- JS property write `entries[name] = path`. -/
def insertEntry (entries : List (String × String)) (name path : String) :
    List (String × String) :=
  if entries.any (fun p => p.1 == name) then
    entries.map (fun p => if p.1 == name then (name, path) else p)
  else entries ++ [(name, path)]

/-- Perform the writes of a discovery-ordered list of `(name, path)`
pairs, leftmost first. -/
def addEntries (entries : List (String × String)) (l : List (String × String)) :
    List (String × String) :=
  l.foldl (fun acc e => insertEntry acc e.1 e.2) entries

/-- The path written last for `name` in a discovery-ordered list. -/
def lastVal (name : String) : List (String × String) → Option String
  | [] => none
  | p :: rest =>
    match lastVal name rest with
    | some v => some v
    | none => if p.1 == name then some p.2 else none

/-! ## The discovery functions of `plugins/entries.ts` -/

/-- `getBackgroundEntries(manifestJson)`:
`const serviceWorker = manifestJson.background?.service_worker;
if (serviceWorker) { const entry = getEntry(serviceWorker); entries[entry.name] = entry.path; }`
(an empty-string path is falsy and is skipped). -/
def getBackgroundEntries (manifestJson : Manifest) : List (String × String) :=
  match backgroundServiceWorker manifestJson with
  | none => []
  | some serviceWorker =>
    if serviceWorker == "" then []
    else insertEntry [] (getEntry serviceWorker).name (getEntry serviceWorker).path

/-- Generic list flattening, used to express the nested `forEach`
iteration order of the source as a single discovery-ordered list. -/
def appendAll {α : Type} : List (List α) → List α
  | [] => []
  | l :: rest => l ++ appendAll rest

/-- The `(name, path)` pairs contributed by one content-script block:
`if (contentScript.js) contentScript.js.forEach(js => { entries[getEntry(js).name] = ... })`
(a present array is truthy in JS even when empty). -/
def contentScriptPairs (cs : ContentScript) : List (String × String) :=
  match cs.js with
  | none => []
  | some files => files.map (fun js => ((getEntry js).name, (getEntry js).path))

/-- `getContentScriptEntries(manifestJson)`. -/
def getContentScriptEntries (manifestJson : Manifest) : List (String × String) :=
  match manifestJson.content_scripts with
  | none => []
  | some contentScripts => addEntries [] (appendAll (contentScripts.map contentScriptPairs))

/-- One HTML file found by the `**/*.html` glob: its directory
(`path.dirname(htmlPath)`) and the `src` attributes of its
`script[src]` tags in document order. -/
structure HtmlFile where
  dirname : String
  scriptSrcs : List String
deriving DecidableEq

/-- node `path.join(dirname, src)` for plain segments.  (Node also
normalizes `.`/`..` segments and duplicate separators; no property
proved below depends on the join's internal form.) -/
def joinPath (a b : String) : String := a ++ "/" ++ b

/-- The source's filter on a script tag:
`if (src && !src.startsWith('http'))`. -/
def qualifiesSrc (src : String) : Bool :=
  !(src == "") && !(strStartsWith src "http")

/-- The `(name, path)` pairs contributed by one HTML file, in document
order. -/
def scriptEntryPairs (f : HtmlFile) : List (String × String) :=
  (f.scriptSrcs.filter qualifiesSrc).map
    (fun src =>
      ((getEntry (joinPath f.dirname src)).name, (getEntry (joinPath f.dirname src)).path))

/-- All `(name, path)` pairs in discovery order (files in glob order,
scripts in document order). -/
def discoveredPagePairs (htmlFiles : List HtmlFile) : List (String × String) :=
  appendAll (htmlFiles.map scriptEntryPairs)

/-- `getExtensionPageEntries()`: the nested `forEach` writes each
discovered pair into the entries object, in discovery order. -/
def getExtensionPageEntries (htmlFiles : List HtmlFile) : List (String × String) :=
  addEntries [] (discoveredPagePairs htmlFiles)

structure EntriesResult where
  background : List (String × String)
  contentScript : List (String × String)
  extensionPage : List (String × String)
deriving DecidableEq

/-- The parts of the project read by `discoverEntries` and the manifest
plugin's `buildStart`: `manifest.json` (`none` when the file does not
exist) and the HTML files under the root. -/
structure ProjectFs where
  manifestJson : Option Manifest
  htmlFiles : List HtmlFile
deriving DecidableEq

/-- `discoverEntries()` from `plugins/entries.ts`: throws
`'No manifest.json found in project root'` when the manifest file is
missing, otherwise builds the three entry maps. -/
def discoverEntries (pfs : ProjectFs) : Except String EntriesResult :=
  match pfs.manifestJson with
  | none => .error "No manifest.json found in project root"
  | some manifestJson =>
    .ok { background := getBackgroundEntries manifestJson
          contentScript := getContentScriptEntries manifestJson
          extensionPage := getExtensionPageEntries pfs.htmlFiles }

/-- The `buildStart` hook of `browserExtManifestPlugin`: throws the same
configuration error when `manifest.json` is missing, otherwise processes
the raw manifest (no output is emitted by this hook). -/
def manifestPluginBuildStart (pfs : ProjectFs) (pkg : PackageJson)
    (isDevelopment : Bool) (now : Nat) : Except String Manifest :=
  match pfs.manifestJson with
  | none => .error "No manifest.json found in project root"
  | some rawManifest => .ok (processManifest rawManifest pkg isDevelopment now)

/-! ## C3: extension-page entry discovery -/

/-- Stated from the claim's words, for comparison with the code's filter
`qualifiesSrc`: a `src` is an absolute URL when it is a `http://` or
`https://` URL.  (Any reasonable reading of "absolute URL" classifies a
bare file name as non-absolute; the counterexample below only uses that
direction.) -/
def isAbsoluteUrl (src : String) : Bool :=
  strStartsWith src "http://" || strStartsWith src "https://"

/-- The claim's count `N`: script tags whose `src` is present and is not
an absolute URL, over all HTML files. -/
def claimedScriptCount (htmlFiles : List HtmlFile) : Nat :=
  (appendAll (htmlFiles.map (fun f => f.scriptSrcs.filter (fun s => !isAbsoluteUrl s)))).length

/-! ## C5: the socket notifier (`packages/scripts/src/scripts/build.ts`, dev)

`notifyClientsToReload(changedFiles, entries)` classifies the changed
files against the three entry maps (`file.includes(entry)` over the
entry names) and, per open client, sends `'reload-background'`
immediately followed by `'reload-content'` after a 500 ms `setTimeout`
when background or content-script entries changed, or `'reload-page'`
immediately when only extension-page entries changed.  A client's sends
are modelled as a schedule of `(delay in ms, message)` pairs in send
order. -/

/-- `WebSocket.OPEN`. -/
def wsOPEN : Nat := 1

/-- A connected client, by its `readyState`. -/
structure WsClient where
  readyState : Nat
deriving DecidableEq

/-- `Object.keys(entryMap).some(entry => changedFiles.some(file => file.includes(entry)))`. -/
def entriesChanged (changedFiles : List String) (entryMap : List (String × String)) : Bool :=
  (entryMap.map Prod.fst).any (fun entry => changedFiles.any (fun file => strContains file entry))

/-- The per-client message schedule of `notifyClientsToReload`'s
branches. -/
def clientSends (backgroundChanged contentScriptChanged extensionPageChanged : Bool) :
    List (Nat × String) :=
  if backgroundChanged || contentScriptChanged then
    [(0, "reload-background"), (500, "reload-content")]
  else if extensionPageChanged then
    [(0, "reload-page")]
  else []

/-- `notifyClientsToReload`: one schedule per client (clients with a
non-open socket are sent nothing). -/
def notifyClientsToReload (changedFiles : List String) (entries : EntriesResult)
    (clients : List WsClient) : List (List (Nat × String)) :=
  clients.map (fun client =>
    if client.readyState == wsOPEN then
      clientSends (entriesChanged changedFiles entries.background)
        (entriesChanged changedFiles entries.contentScript)
        (entriesChanged changedFiles entries.extensionPage)
    else [])

/-- The watch callback around the notifier: on a fatal error or a stats
error nothing is sent; otherwise, when auto reload is enabled,
`notifyClientsToReload` runs. -/
def rebuildNotifications (hasErrors reloadEnabled : Bool) (changedFiles : List String)
    (entries : EntriesResult) (clients : List WsClient) : List (List (Nat × String)) :=
  if hasErrors then clients.map (fun _ => [])
  else if reloadEnabled then notifyClientsToReload changedFiles entries clients
  else clients.map (fun _ => [])

/-! ## C6: the `shutdown` handler (`build.ts` dev script)

```
let forceExit = false;
let shutdownInProgress = false;
const shutdown = () => {
  if (shutdownInProgress) return;
  if (forceExit) { process.exit(1); }
  shutdownInProgress = true;
  forceExit = true;
  ... // graceful shutdown with a 3 s force-exit timeout
};
process.on('SIGINT', shutdown);
process.on('SIGTERM', shutdown);
```

One invocation of `shutdown` is modelled as a step on the two module
flags, returning the next state together with the handler's visible
effect. -/

structure DevShutdownState where
  forceExit : Bool
  shutdownInProgress : Bool
deriving DecidableEq

inductive ShutdownEffect
  /-- The handler returned without doing anything. -/
  | ignored
  /-- The handler called `process.exit(1)` immediately. -/
  | exitNow
  /-- The handler started the graceful shutdown sequence. -/
  | beginSequence
deriving DecidableEq

def initialShutdownState : DevShutdownState :=
  { forceExit := false, shutdownInProgress := false }

/-- One delivery of a shutdown signal to `shutdown`. -/
def shutdownSignal (s : DevShutdownState) : DevShutdownState × ShutdownEffect :=
  if s.shutdownInProgress then (s, .ignored)
  else if s.forceExit then (s, .exitNow)
  else ({ forceExit := true, shutdownInProgress := true }, .beginSequence)

/-! ## C7: the timestamp-polling background reload client
(`plugins/hot-reload.ts`, `injectBackgroundReload`)

```
let lastTimestamp = null;
const checkForUpdates = async () => {
  const manifest = chrome.runtime.getManifest();
  const currentTimestamp = manifest.__dev_timestamp;
  if (lastTimestamp === null) {
    lastTimestamp = currentTimestamp;
  } else if (currentTimestamp && currentTimestamp !== lastTimestamp) {
    chrome.runtime.reload();
  }
};
setInterval(checkForUpdates, POLL_INTERVAL);
```

One poll tick is modelled as a step on `lastTimestamp`, returning the
next state and whether `chrome.runtime.reload()` was triggered.  The
values are JS values: `null` (initial), `undefined` (manifest without the
field) or a number; `0` is falsy. -/

inductive JsVal
  | null
  | undef
  | num (n : Nat)
deriving DecidableEq

/-- JS truthiness of the observed timestamp value. -/
def truthyVal : JsVal → Bool
  | .num (_ + 1) => true
  | _ => false

structure BackgroundPollState where
  lastTimestamp : JsVal
deriving DecidableEq

def initialPollState : BackgroundPollState := { lastTimestamp := .null }

/-- One `checkForUpdates` tick observing `currentTimestamp`. -/
def checkForUpdates (currentTimestamp : JsVal) (s : BackgroundPollState) :
    BackgroundPollState × Bool :=
  if s.lastTimestamp == JsVal.null then ({ lastTimestamp := currentTimestamp }, false)
  else if truthyVal currentTimestamp && !(currentTimestamp == s.lastTimestamp) then
    (s, true)
  else (s, false)


theorem listStartsWith_nil (s : List Char) : listStartsWith s [] = true := by
  cases s <;> rfl

theorem listStartsWith_append (p t : List Char) : listStartsWith (p ++ t) p = true := by
  induction p with
  | nil => simpa using listStartsWith_nil t
  | cons c cs ih => simp [listStartsWith, ih]

theorem listEndsWith_append (t e : List Char) : listEndsWith (t ++ e) e = true := by
  unfold listEndsWith
  rw [List.reverse_append]
  exact listStartsWith_append e.reverse t.reverse

/-- If the last characters differ, a list ending in `as ++ [a]` does not
end in `bs ++ [b]`. -/
theorem listEndsWith_last_ne (x as bs : List Char) (a b : Char) (h : a ≠ b) :
    listEndsWith (x ++ (as ++ [a])) (bs ++ [b]) = false := by
  unfold listEndsWith
  simp [List.reverse_append, listStartsWith, h]

theorem strData_append (s t : String) : (s ++ t).data = s.data ++ t.data := by
  cases s
  cases t
  rfl

theorem strEndsWith_append (x e : String) : strEndsWith (x ++ e) e = true := by
  unfold strEndsWith
  rw [strData_append]
  exact listEndsWith_append x.data e.data

theorem strEndsWith_append_ne (x e f : String) (as bs : List Char) (a b : Char)
    (he : e.data = as ++ [a]) (hf : f.data = bs ++ [b]) (h : a ≠ b) :
    strEndsWith (x ++ e) f = false := by
  unfold strEndsWith
  rw [strData_append, he, hf]
  exact listEndsWith_last_ne x.data as bs a b h

theorem strDropRight_append (x e : String) (n : Nat) (h : e.data.length = n) :
    strDropRight (x ++ e) n = x := by
  unfold strDropRight
  rw [strData_append, ← h]
  rw [List.length_append, Nat.add_sub_cancel, List.take_left]

theorem str_append_ne_empty (x e : String) (h : e.data ≠ []) : x ++ e ≠ "" := by
  intro heq
  have hd : (x ++ e).data = ("" : String).data := by rw [heq]
  rw [strData_append] at hd
  have : e.data = [] := by
    have := List.append_eq_nil.mp hd
    exact this.2
  exact h this

theorem endsJs_not_jsx (x : String) : strEndsWith (x ++ ".js") ".jsx" = false :=
  strEndsWith_append_ne x ".js" ".jsx" ['.', 'j'] ['.', 'j', 's'] 's' 'x'
    (by decide) (by decide) (by decide)

theorem endsJs_not_tsx (x : String) : strEndsWith (x ++ ".js") ".tsx" = false :=
  strEndsWith_append_ne x ".js" ".tsx" ['.', 'j'] ['.', 't', 's'] 's' 'x'
    (by decide) (by decide) (by decide)

theorem endsHtml_not_jsx (x : String) : strEndsWith (x ++ ".html") ".jsx" = false :=
  strEndsWith_append_ne x ".html" ".jsx" ['.', 'h', 't', 'm'] ['.', 'j', 's'] 'l' 'x'
    (by decide) (by decide) (by decide)

theorem endsHtml_not_tsx (x : String) : strEndsWith (x ++ ".html") ".tsx" = false :=
  strEndsWith_append_ne x ".html" ".tsx" ['.', 'h', 't', 'm'] ['.', 't', 's'] 'l' 'x'
    (by decide) (by decide) (by decide)

theorem endsHtml_not_js (x : String) : strEndsWith (x ++ ".html") ".js" = false :=
  strEndsWith_append_ne x ".html" ".js" ['.', 'h', 't', 'm'] ['.', 'j'] 'l' 's'
    (by decide) (by decide) (by decide)

theorem endsHtml_not_ts (x : String) : strEndsWith (x ++ ".html") ".ts" = false :=
  strEndsWith_append_ne x ".html" ".ts" ['.', 'h', 't', 'm'] ['.', 't'] 'l' 's'
    (by decide) (by decide) (by decide)

theorem replaceFileExtension_append_js (x : String) :
    replaceFileExtension (x ++ ".js") = x ++ ".js" := by
  unfold replaceFileExtension
  rw [endsJs_not_jsx, endsJs_not_tsx, strEndsWith_append]
  simp [strDropRight_append x ".js" 3 (by decide)]

theorem replaceFileExtension_idem (s : String) :
    replaceFileExtension (replaceFileExtension s) = replaceFileExtension s := by
  by_cases h1 : (strEndsWith s ".jsx" || strEndsWith s ".tsx") = true
  · have hs : replaceFileExtension s = strDropRight s 4 ++ ".js" := by
      unfold replaceFileExtension
      simp [h1]
    rw [hs, replaceFileExtension_append_js]
  · by_cases h2 : (strEndsWith s ".js" || strEndsWith s ".ts") = true
    · have hs : replaceFileExtension s = strDropRight s 3 ++ ".js" := by
        unfold replaceFileExtension
        simp [h1, h2]
      rw [hs, replaceFileExtension_append_js]
    · have hs : replaceFileExtension s = s := by
        unfold replaceFileExtension
        simp [h1, h2]
      rw [hs, hs]

theorem replaceFileExtension_endsWith (s : String) (h : hasScriptExt s = true) :
    strEndsWith (replaceFileExtension s) ".js" = true := by
  unfold replaceFileExtension
  by_cases h1 : (strEndsWith s ".jsx" || strEndsWith s ".tsx") = true
  · simp only [h1, if_true]
    exact strEndsWith_append _ _
  · by_cases h2 : (strEndsWith s ".js" || strEndsWith s ".ts") = true
    · simp only [h1, h2, if_false, if_true, Bool.false_eq_true, ite_false, ite_true]
      exact strEndsWith_append _ _
    · exfalso
      unfold hasScriptExt at h
      simp only [Bool.or_eq_true] at h h1 h2
      tauto

theorem replaceFileExtension_ne_empty (s : String) (h : s ≠ "") :
    replaceFileExtension s ≠ "" := by
  unfold replaceFileExtension
  by_cases h1 : (strEndsWith s ".jsx" || strEndsWith s ".tsx") = true
  · simp only [h1, if_true]
    exact str_append_ne_empty _ _ (by decide)
  · by_cases h2 : (strEndsWith s ".js" || strEndsWith s ".ts") = true
    · simp only [h1, h2, Bool.false_eq_true, ite_false, ite_true]
      exact str_append_ne_empty _ _ (by decide)
    · simpa [h1, h2] using h

theorem replacePopupExtension_append_html (x : String) :
    replacePopupExtension (x ++ ".html") = x ++ ".html" := by
  unfold replacePopupExtension
  rw [endsHtml_not_jsx, endsHtml_not_tsx, endsHtml_not_js, endsHtml_not_ts]
  simp

theorem replacePopupExtension_idem (s : String) :
    replacePopupExtension (replacePopupExtension s) = replacePopupExtension s := by
  by_cases h1 : (strEndsWith s ".jsx" || strEndsWith s ".tsx") = true
  · have hs : replacePopupExtension s = strDropRight s 4 ++ ".html" := by
      unfold replacePopupExtension
      simp [h1]
    rw [hs, replacePopupExtension_append_html]
  · by_cases h2 : (strEndsWith s ".js" || strEndsWith s ".ts") = true
    · have hs : replacePopupExtension s = strDropRight s 3 ++ ".html" := by
        unfold replacePopupExtension
        simp [h1, h2]
      rw [hs, replacePopupExtension_append_html]
    · have hs : replacePopupExtension s = s := by
        unfold replacePopupExtension
        simp [h1, h2]
      rw [hs, hs]

theorem replacePopupExtension_ne_empty (s : String) (h : s ≠ "") :
    replacePopupExtension s ≠ "" := by
  unfold replacePopupExtension
  by_cases h1 : (strEndsWith s ".jsx" || strEndsWith s ".tsx") = true
  · simp only [h1, if_true]
    exact str_append_ne_empty _ _ (by decide)
  · by_cases h2 : (strEndsWith s ".js" || strEndsWith s ".ts") = true
    · simp only [h1, h2, Bool.false_eq_true, ite_false, ite_true]
      exact str_append_ne_empty _ _ (by decide)
    · simpa [h1, h2] using h

example : replaceFileExtension "src/background/index.ts" = "src/background/index.js" := by decide

example : replaceFileExtension "style.css" = "style.css" := by decide

example : replaceFileExtension "a.tsx" = "a.js" := by decide

/-! ### Idempotence of the individual processing steps -/

theorem backfillField_idem (a b : Option String) :
    backfillField (backfillField a b) b = backfillField a b := by
  cases ha : truthyStr a <;> cases hb : truthyStr b <;>
    simp [backfillField, ha, hb]

theorem processBackground_idem (ob : Option Background) :
    processBackground (processBackground ob) = processBackground ob := by
  cases ob with
  | none => rfl
  | some b =>
    cases hsw : b.service_worker with
    | none =>
      simp [processBackground, truthyStr, hsw]
    | some s =>
      by_cases hs : s = ""
      · simp [processBackground, truthyStr, hsw, hs]
      · have ht : truthyStr (some s) = true := by simp [truthyStr, hs]
        have ht2 : truthyStr (some (replaceFileExtension s)) = true := by
          simp [truthyStr, replaceFileExtension_ne_empty s hs]
        simp [processBackground, hsw, ht, ht2, replaceFileExtension_idem]

theorem optListMap_idem {α : Type} (f : α → α) (hf : ∀ x, f (f x) = f x)
    (o : Option (List α)) :
    Option.map (List.map f) (Option.map (List.map f) o) = Option.map (List.map f) o := by
  cases o with
  | none => rfl
  | some l => simp [List.map_map, Function.comp_def, hf]

theorem processContentScript_idem (cs : ContentScript) :
    processContentScript (processContentScript cs) = processContentScript cs := by
  unfold processContentScript
  simp only [ContentScript.mk.injEq]
  exact ⟨optListMap_idem replaceFileExtension replaceFileExtension_idem cs.js,
    optListMap_idem replaceFileExtension replaceFileExtension_idem cs.css⟩

theorem rewriteResource_idem (res : String) :
    rewriteResource (rewriteResource res) = rewriteResource res := by
  unfold rewriteResource
  by_cases h : hasScriptExt res = true
  · simp only [h, if_true]
    by_cases h2 : hasScriptExt (replaceFileExtension res) = true
    · simp [h2, replaceFileExtension_idem]
    · simp [h2]
  · simp [h]

theorem processResource_idem (r : WebAccessibleResource) :
    processResource (processResource r) = processResource r := by
  unfold processResource
  simp only [WebAccessibleResource.mk.injEq]
  exact optListMap_idem rewriteResource rewriteResource_idem r.resources

theorem processAction_idem (oa : Option ActionInfo) :
    processAction (processAction oa) = processAction oa := by
  cases oa with
  | none => rfl
  | some a =>
    cases hdp : a.default_popup with
    | none =>
      simp [processAction, truthyStr, hdp]
    | some s =>
      by_cases hs : s = ""
      · simp [processAction, truthyStr, hdp, hs]
      · have ht : truthyStr (some s) = true := by simp [truthyStr, hs]
        have ht2 : truthyStr (some (replacePopupExtension s)) = true := by
          simp [truthyStr, replacePopupExtension_ne_empty s hs]
        simp [processAction, hdp, ht, ht2, replacePopupExtension_idem]

/-- **C2.** Manifest processing is idempotent in production mode: running
`processManifest` a second time on an already-processed manifest, with the
same package metadata and the development flag `false`, returns the first
output unchanged (in particular already-rewritten `.js` paths are not
rewritten again). -/
theorem c2_processManifest_prod_idem (m : Manifest) (pkg : PackageJson) (now1 now2 : Nat) :
    processManifest (processManifest m pkg false now1) pkg false now2 =
      processManifest m pkg false now1 := by
  unfold processManifest
  simp only [Manifest.mk.injEq]
  refine ⟨backfillField_idem _ _, backfillField_idem _ _, backfillField_idem _ _,
    processBackground_idem _, ?_, ?_, processAction_idem _, processAction_idem _,
    processAction_idem _, rfl⟩
  · exact optListMap_idem processContentScript processContentScript_idem m.content_scripts
  · exact optListMap_idem processResource processResource_idem m.web_accessible_resources

/-- **C1.** For every manifest whose `background.service_worker` ends in a
source-script extension (`.js`, `.jsx`, `.ts`, `.tsx`), the processed
manifest's `background.service_worker` is the extension-rewritten path and
ends in `.js`. -/
theorem c1_service_worker_rewritten_to_js (m : Manifest) (pkg : PackageJson)
    (dev : Bool) (now : Nat) (sw : String)
    (hsw : backgroundServiceWorker m = some sw) (hext : hasScriptExt sw = true) :
    ∃ out, backgroundServiceWorker (processManifest m pkg dev now) = some out ∧
      out = replaceFileExtension sw ∧ strEndsWith out ".js" = true := by
  have hsne : sw ≠ "" := by
    intro h
    rw [h] at hext
    exact absurd hext (by decide)
  cases hb : m.background with
  | none =>
    simp [backgroundServiceWorker, hb] at hsw
  | some b =>
    simp only [backgroundServiceWorker, hb] at hsw
    refine ⟨replaceFileExtension sw, ?_, rfl, replaceFileExtension_endsWith sw hext⟩
    simp [backgroundServiceWorker, processManifest, processBackground, hb, hsw,
      truthyStr, hsne]

/-- Witness for **C1** at the claim's concrete scenario: a manifest
declaring `background.service_worker: "src/background/index.ts"` processes
to `"src/background/index.js"`. -/
theorem c1_witness :
    hasScriptExt "src/background/index.ts" = true ∧
    (∃ out,
      backgroundServiceWorker
        (processManifest
          { name := none, version := none, description := none,
            background := some { service_worker := some "src/background/index.ts" },
            content_scripts := none, web_accessible_resources := none,
            action := none, browser_action := none, page_action := none,
            dev_timestamp := none }
          { name := none, version := none, description := none } false 0) = some out ∧
      out = replaceFileExtension "src/background/index.ts" ∧
      strEndsWith out ".js" = true) ∧
    backgroundServiceWorker
        (processManifest
          { name := none, version := none, description := none,
            background := some { service_worker := some "src/background/index.ts" },
            content_scripts := none, web_accessible_resources := none,
            action := none, browser_action := none, page_action := none,
            dev_timestamp := none }
          { name := none, version := none, description := none } false 0) =
      some "src/background/index.js" :=
  ⟨by decide,
   c1_service_worker_rewritten_to_js _ _ false 0 "src/background/index.ts" rfl (by decide),
   by decide⟩

/-- **C8, counterexample.** The claim "if the field is present in the
manifest, its value is left unchanged" fails: a present-but-empty `name`
is falsy in JavaScript, so `!manifest.name` holds and the package value
overwrites it. -/
theorem c8_counterexample :
    ({ name := some "", version := none, description := none,
       background := none, content_scripts := none, web_accessible_resources := none,
       action := none, browser_action := none, page_action := none,
       dev_timestamp := none } : Manifest).name = some "" ∧
    (processManifest
      { name := some "", version := none, description := none,
        background := none, content_scripts := none, web_accessible_resources := none,
        action := none, browser_action := none, page_action := none,
        dev_timestamp := none }
      { name := some "my-extension", version := none, description := none } false 0).name =
      some "my-extension" ∧
    (some "my-extension" : Option String) ≠ some "" := by
  refine ⟨rfl, ?_, by decide⟩
  decide

/-- **C8, amended.** Backfill with JavaScript truthiness: a `name`
(resp. `version`, `description`) that is absent **or empty** is replaced
by the package-metadata value when that value is itself non-empty; a
non-empty manifest field is left unchanged, and when the package value is
absent or empty the manifest field is left unchanged. -/
theorem c8_backfill_truthy (m : Manifest) (pkg : PackageJson) (dev : Bool) (now : Nat) :
    (truthyStr m.name = false → truthyStr pkg.name = true →
      (processManifest m pkg dev now).name = pkg.name) ∧
    (truthyStr m.name = true → (processManifest m pkg dev now).name = m.name) ∧
    (truthyStr pkg.name = false → (processManifest m pkg dev now).name = m.name) ∧
    (truthyStr m.version = false → truthyStr pkg.version = true →
      (processManifest m pkg dev now).version = pkg.version) ∧
    (truthyStr m.version = true → (processManifest m pkg dev now).version = m.version) ∧
    (truthyStr pkg.version = false → (processManifest m pkg dev now).version = m.version) ∧
    (truthyStr m.description = false → truthyStr pkg.description = true →
      (processManifest m pkg dev now).description = pkg.description) ∧
    (truthyStr m.description = true →
      (processManifest m pkg dev now).description = m.description) ∧
    (truthyStr pkg.description = false →
      (processManifest m pkg dev now).description = m.description) := by
  refine ⟨?_, ?_, ?_, ?_, ?_, ?_, ?_, ?_, ?_⟩ <;>
    intro h1 <;>
    first
      | (intro h2
         simp [processManifest, backfillField, h1, h2])
      | simp [processManifest, backfillField, h1]

/-- Witness for **C8 (amended)**: a manifest lacking `name` but carrying
its own `version` takes the package `name` and keeps its `version`. -/
theorem c8_backfill_truthy_witness :
    (processManifest
      { name := none, version := some "2.0.0", description := none,
        background := none, content_scripts := none, web_accessible_resources := none,
        action := none, browser_action := none, page_action := none,
        dev_timestamp := none }
      { name := some "pkg-name", version := some "1.0.0", description := none }
      false 0).name = some "pkg-name" ∧
    (processManifest
      { name := none, version := some "2.0.0", description := none,
        background := none, content_scripts := none, web_accessible_resources := none,
        action := none, browser_action := none, page_action := none,
        dev_timestamp := none }
      { name := some "pkg-name", version := some "1.0.0", description := none }
      false 0).version = some "2.0.0" :=
  ⟨(c8_backfill_truthy _ _ false 0).1 (by decide) (by decide),
   (c8_backfill_truthy _ _ false 0).2.2.2.2.1 (by decide)⟩

example : extOf "src/background/index.ts".data = ".ts".data := by decide

example : extOf "src/.env".data = [] := by decide

example : extOf "a/..".data = [] := by decide

example : (getEntry "src/background/index.ts").name = "src/background/index" := by decide

example : (getEntry "src\\popup\\index.tsx").name = "src/popup/index" := by decide

example : (getEntry "src/background/index.ts").path = "./src/background/index.ts" := by decide

/-- **C4.** The claim fails on the code: `getEntry` removes the *first*
occurrence of the extension substring anywhere in the relative path
(JS string-pattern `replace`), not the trailing extension.  For
`"src/d3.js/chart.js"` (a directory named `d3.js`) the claim's name is
`"src/d3.js/chart"`, but the code produces `"src/d3/chart.js"`, altering
a directory name and keeping the trailing `.js`. -/
theorem c4_extension_stripped_from_first_occurrence :
    claimedEntryName "src/d3.js/chart.js" = "src/d3.js/chart" ∧
    (getEntry "src/d3.js/chart.js").name = "src/d3/chart.js" ∧
    ("src/d3/chart.js" : String) ≠ "src/d3.js/chart" := by
  refine ⟨by decide, by decide, by decide⟩

theorem keys_insertEntry (m : List (String × String)) (k v : String) :
    (insertEntry m k v).map Prod.fst =
      if m.any (fun p => p.1 == k) then m.map Prod.fst else m.map Prod.fst ++ [k] := by
  unfold insertEntry
  split
  · rw [List.map_map]
    apply List.map_congr_left
    intro p _
    simp only [Function.comp_apply]
    split
    · next hpk => exact (eq_of_beq hpk).symm
    · rfl
  · simp

theorem mem_keys_insertEntry (m : List (String × String)) (k v a : String) :
    a ∈ (insertEntry m k v).map Prod.fst ↔ a ∈ m.map Prod.fst ∨ a = k := by
  rw [keys_insertEntry]
  split
  · next h =>
    constructor
    · exact Or.inl
    · rintro (h1 | rfl)
      · exact h1
      · rw [List.any_eq_true] at h
        obtain ⟨p, hp, hpk⟩ := h
        exact (eq_of_beq hpk) ▸ List.mem_map_of_mem Prod.fst hp
  · simp

theorem nodup_keys_insertEntry (m : List (String × String)) (k v : String)
    (h : (m.map Prod.fst).Nodup) : ((insertEntry m k v).map Prod.fst).Nodup := by
  rw [keys_insertEntry]
  split
  · exact h
  · next hany =>
    have hk : k ∉ m.map Prod.fst := by
      intro hmem
      rw [List.mem_map] at hmem
      obtain ⟨p, hp, hpk⟩ := hmem
      have : m.any (fun p => p.1 == k) = true := by
        rw [List.any_eq_true]
        exact ⟨p, hp, by simp [hpk]⟩
      simp [this] at hany
    simp [List.nodup_append, h, hk]

theorem length_insertEntry (m : List (String × String)) (k v : String) :
    (insertEntry m k v).length =
      if m.any (fun p => p.1 == k) then m.length else m.length + 1 := by
  unfold insertEntry
  split <;> simp

theorem jsGet_map_replace_self (m : List (String × String)) (k v : String) :
    jsGet k (m.map (fun p => if p.1 == k then (k, v) else p)) =
      if m.any (fun p => p.1 == k) then some v else jsGet k m := by
  induction m with
  | nil => rfl
  | cons p rest ih =>
    by_cases hpk : p.1 = k
    · simp [jsGet, hpk]
    · simp [jsGet, hpk] at ih ⊢
      have hb : (p.1 == k) = false := by simp [hpk]
      rw [hb, Bool.false_or, ih]

theorem jsGet_map_replace_other (m : List (String × String)) (k v a : String)
    (h : a ≠ k) :
    jsGet a (m.map (fun p => if p.1 == k then (k, v) else p)) = jsGet a m := by
  induction m with
  | nil => rfl
  | cons p rest ih =>
    simp at ih
    by_cases hpk : p.1 = k
    · simp [jsGet, hpk, Ne.symm h, ih]
    · by_cases hpa : p.1 = a
      · simp [jsGet, hpk, hpa, h]
      · simp [jsGet, hpk, hpa, ih]

theorem jsGet_eq_none_of_keys_ne (m : List (String × String)) (k : String)
    (h : ∀ p ∈ m, p.1 ≠ k) : jsGet k m = none := by
  induction m with
  | nil => rfl
  | cons p rest ih =>
    simp [jsGet, h p (by simp), ih (fun q hq => h q (by simp [hq]))]

theorem jsGet_append (k : String) (m l : List (String × String)) :
    jsGet k (m ++ l) =
      match jsGet k m with
      | some v => some v
      | none => jsGet k l := by
  induction m with
  | nil => rfl
  | cons p rest ih =>
    by_cases hpk : (p.1 == k) = true
    · simp [jsGet, hpk]
    · simp [jsGet, hpk, ih]

theorem jsGet_insertEntry_self (m : List (String × String)) (k v : String) :
    jsGet k (insertEntry m k v) = some v := by
  unfold insertEntry
  split
  · next h =>
    rw [jsGet_map_replace_self]
    simp [h]
  · next h =>
    rw [jsGet_append]
    have hnone : jsGet k m = none := by
      apply jsGet_eq_none_of_keys_ne
      intro p hp hpk
      exact h (List.any_eq_true.mpr ⟨p, hp, beq_iff_eq.mpr hpk⟩)
    simp [hnone, jsGet]

theorem jsGet_insertEntry_other (m : List (String × String)) (k v a : String)
    (h : a ≠ k) : jsGet a (insertEntry m k v) = jsGet a m := by
  unfold insertEntry
  split
  · exact jsGet_map_replace_other m k v a h
  · rw [jsGet_append]
    cases hg : jsGet a m with
    | some w => rfl
    | none => simp [jsGet, Ne.symm h, hg]

theorem addEntries_cons (m : List (String × String)) (e : String × String)
    (l : List (String × String)) :
    addEntries m (e :: l) = addEntries (insertEntry m e.1 e.2) l := rfl

theorem mem_keys_addEntries (l : List (String × String)) :
    ∀ (m : List (String × String)) (a : String),
      a ∈ (addEntries m l).map Prod.fst ↔ a ∈ m.map Prod.fst ∨ a ∈ l.map Prod.fst := by
  induction l with
  | nil =>
    intro m a
    simp [addEntries]
  | cons e l ih =>
    intro m a
    rw [addEntries_cons, ih, mem_keys_insertEntry]
    simp only [List.map_cons, List.mem_cons]
    tauto

theorem nodup_keys_addEntries (l : List (String × String)) :
    ∀ (m : List (String × String)), (m.map Prod.fst).Nodup →
      ((addEntries m l).map Prod.fst).Nodup := by
  induction l with
  | nil =>
    intro m h
    exact h
  | cons e l ih =>
    intro m h
    rw [addEntries_cons]
    exact ih _ (nodup_keys_insertEntry m e.1 e.2 h)

theorem jsGet_addEntries (l : List (String × String)) :
    ∀ (m : List (String × String)) (a : String),
      jsGet a (addEntries m l) =
        match lastVal a l with
        | some v => some v
        | none => jsGet a m := by
  induction l with
  | nil =>
    intro m a
    rfl
  | cons e l ih =>
    intro m a
    rw [addEntries_cons, ih]
    cases hlast : lastVal a l with
    | some v => simp [lastVal, hlast]
    | none =>
      by_cases hea : (e.1 == a) = true
      · have ha : a = e.1 := (eq_of_beq hea).symm
        subst ha
        simp [lastVal, hlast, jsGet_insertEntry_self]
      · have hne : a ≠ e.1 := fun hh => by simp [hh] at hea
        simp [lastVal, hlast, hea, jsGet_insertEntry_other m e.1 e.2 a hne]

theorem length_addEntries_card (l : List (String × String)) :
    (addEntries [] l).length = ((l.map Prod.fst).toFinset).card := by
  have hnodup : ((addEntries [] l).map Prod.fst).Nodup :=
    nodup_keys_addEntries l [] (by simp)
  have hlen : (addEntries [] l).length = ((addEntries [] l).map Prod.fst).length :=
    (List.length_map _ _).symm
  rw [hlen, ← List.toFinset_card_of_nodup hnodup]
  congr 1
  apply Finset.ext
  intro a
  simp only [List.mem_toFinset]
  rw [mem_keys_addEntries]
  simp

/-- **C10, counterexample.** The claim "empty when the manifest has no
`background.service_worker`, and … exactly one name-to-path pair
otherwise" fails when the field is present but empty: the empty string is
falsy, so the map is empty although the manifest has a
`background.service_worker`. -/
theorem c10_counterexample :
    backgroundServiceWorker
      { name := none, version := none, description := none,
        background := some { service_worker := some "" },
        content_scripts := none, web_accessible_resources := none,
        action := none, browser_action := none, page_action := none,
        dev_timestamp := none } = some "" ∧
    getBackgroundEntries
      { name := none, version := none, description := none,
        background := some { service_worker := some "" },
        content_scripts := none, web_accessible_resources := none,
        action := none, browser_action := none, page_action := none,
        dev_timestamp := none } = [] ∧
    ([] : List (String × String)).length ≠ 1 := by
  refine ⟨rfl, rfl, by decide⟩

/-- **C10, amended.** The background entry map contains at most one
entry: it is empty when the manifest has no `background.service_worker`
**or the field is the (falsy) empty string**, and contains exactly one
name-to-path pair when the field is a non-empty string. -/
theorem c10_background_entries_at_most_one (m : Manifest) :
    (getBackgroundEntries m).length ≤ 1 ∧
    (backgroundServiceWorker m = none → getBackgroundEntries m = []) ∧
    (backgroundServiceWorker m = some "" → getBackgroundEntries m = []) ∧
    (∀ sw, backgroundServiceWorker m = some sw → sw ≠ "" →
      getBackgroundEntries m = [((getEntry sw).name, (getEntry sw).path)]) := by
  refine ⟨?_, ?_, ?_, ?_⟩
  · unfold getBackgroundEntries
    cases hsw : backgroundServiceWorker m with
    | none => simp
    | some sw =>
      by_cases hs : sw = ""
      · simp [hs]
      · simp [hs, insertEntry]
  · intro h
    unfold getBackgroundEntries
    rw [h]
  · intro h
    unfold getBackgroundEntries
    rw [h]
    simp
  · intro sw h hs
    unfold getBackgroundEntries
    rw [h]
    simp [hs, insertEntry]

/-- Witness for **C10 (amended)**: a manifest with service worker
`"src/background/index.ts"` yields exactly the one expected pair, and a
manifest without a background block yields the empty map. -/
theorem c10_background_entries_witness :
    getBackgroundEntries
      { name := none, version := none, description := none,
        background := some { service_worker := some "src/background/index.ts" },
        content_scripts := none, web_accessible_resources := none,
        action := none, browser_action := none, page_action := none,
        dev_timestamp := none } =
      [("src/background/index", "./src/background/index.ts")] ∧
    getBackgroundEntries
      { name := none, version := none, description := none,
        background := none,
        content_scripts := none, web_accessible_resources := none,
        action := none, browser_action := none, page_action := none,
        dev_timestamp := none } = [] := by
  constructor
  · rw [(c10_background_entries_at_most_one
      { name := none, version := none, description := none,
        background := some { service_worker := some "src/background/index.ts" },
        content_scripts := none, web_accessible_resources := none,
        action := none, browser_action := none, page_action := none,
        dev_timestamp := none }).2.2.2 "src/background/index.ts" rfl (by decide)]
    decide
  · exact (c10_background_entries_at_most_one
      { name := none, version := none, description := none,
        background := none,
        content_scripts := none, web_accessible_resources := none,
        action := none, browser_action := none, page_action := none,
        dev_timestamp := none }).2.1 rfl

/-- **C3, counterexample.** The code filters with
`!src.startsWith('http')`, not "is not an absolute URL": the relative
source `"http-client.ts"` starts with `http`, so it is skipped.  One HTML
file with that single script tag has `N = 1` qualifying tags under the
claim's reading and no name collisions, yet discovery produces `0`
entries. -/
theorem c3_counterexample :
    claimedScriptCount [{ dirname := "pages", scriptSrcs := ["http-client.ts"] }] = 1 ∧
    getExtensionPageEntries [{ dirname := "pages", scriptSrcs := ["http-client.ts"] }] = [] := by
  refine ⟨by decide, by decide⟩

theorem discoveredPagePairs_length (htmlFiles : List HtmlFile) :
    (discoveredPagePairs htmlFiles).length =
      (appendAll (htmlFiles.map (fun f => f.scriptSrcs.filter qualifiesSrc))).length := by
  induction htmlFiles with
  | nil => rfl
  | cons f rest ih =>
    simp only [discoveredPagePairs, List.map_cons, appendAll, List.length_append] at ih ⊢
    rw [ih]
    simp [scriptEntryPairs]

/-- **C3, amended.** With the code's actual filter (`src` non-empty and
not starting with `http`): discovery produces one entry per qualifying
script tag — exactly `N` when all discovered names are distinct, and in
general exactly one entry per distinct name; for every name the stored
path is the one discovered last. -/
theorem c3_extension_page_entries (htmlFiles : List HtmlFile) :
    (discoveredPagePairs htmlFiles).length =
      (appendAll (htmlFiles.map (fun f => f.scriptSrcs.filter qualifiesSrc))).length ∧
    ((getExtensionPageEntries htmlFiles).map Prod.fst).Nodup ∧
    (getExtensionPageEntries htmlFiles).length =
      ((discoveredPagePairs htmlFiles).map Prod.fst).toFinset.card ∧
    (((discoveredPagePairs htmlFiles).map Prod.fst).Nodup →
      (getExtensionPageEntries htmlFiles).length = (discoveredPagePairs htmlFiles).length) ∧
    (∀ name, jsGet name (getExtensionPageEntries htmlFiles) =
      lastVal name (discoveredPagePairs htmlFiles)) := by
  refine ⟨discoveredPagePairs_length htmlFiles, ?_, ?_, ?_, ?_⟩
  · exact nodup_keys_addEntries _ [] (by simp)
  · exact length_addEntries_card _
  · intro hnodup
    rw [getExtensionPageEntries, length_addEntries_card,
      List.toFinset_card_of_nodup hnodup, List.length_map]
  · intro name
    rw [getExtensionPageEntries, jsGet_addEntries]
    cases lastVal name (discoveredPagePairs htmlFiles) <;> rfl

/-- Witness for **C3 (amended)**, on two concrete inputs: a
collision-free project where the entry count equals the qualifying-script
count, and a project where two distinct files normalize to the same entry
name `"a/b"` (via the separator forms `a\b.ts` and `a/b.ts`) and the
later path wins. -/
theorem c3_extension_page_entries_witness :
    (getExtensionPageEntries
      [{ dirname := "src", scriptSrcs := ["popup.ts", "options.ts"] }]).length = 2 ∧
    jsGet "src/a/b"
      (getExtensionPageEntries
        [{ dirname := "src", scriptSrcs := ["a\\b.ts"] },
         { dirname := "src", scriptSrcs := ["a/b.ts"] }]) = some "./src/a/b.ts" := by
  constructor
  · rw [(c3_extension_page_entries
      [{ dirname := "src", scriptSrcs := ["popup.ts", "options.ts"] }]).2.2.2.1 (by decide)]
    decide
  · rw [(c3_extension_page_entries
      [{ dirname := "src", scriptSrcs := ["a\\b.ts"] },
       { dirname := "src", scriptSrcs := ["a/b.ts"] }]).2.2.2.2 "src/a/b"]
    decide

/-- **C9.** With no `manifest.json` in the project root, `discoverEntries`
and the manifest plugin's `buildStart` each fail with the configuration
error before producing any entries or processed manifest; when
`manifest.json` exists, the error branch is unreachable and both
succeed. -/
theorem c9_missing_manifest_is_fatal (pfs : ProjectFs) (pkg : PackageJson)
    (dev : Bool) (now : Nat) :
    (pfs.manifestJson = none →
      discoverEntries pfs = .error "No manifest.json found in project root" ∧
      manifestPluginBuildStart pfs pkg dev now =
        .error "No manifest.json found in project root") ∧
    (∀ rawManifest, pfs.manifestJson = some rawManifest →
      discoverEntries pfs =
        .ok { background := getBackgroundEntries rawManifest
              contentScript := getContentScriptEntries rawManifest
              extensionPage := getExtensionPageEntries pfs.htmlFiles } ∧
      manifestPluginBuildStart pfs pkg dev now =
        .ok (processManifest rawManifest pkg dev now)) := by
  constructor
  · intro h
    constructor
    · rw [discoverEntries, h]
    · rw [manifestPluginBuildStart, h]
  · intro rawManifest h
    constructor
    · rw [discoverEntries, h]
    · rw [manifestPluginBuildStart, h]

/-- Witness for **C9**: a project without `manifest.json` fails, a
project with an (empty-fields) manifest succeeds. -/
theorem c9_missing_manifest_witness :
    discoverEntries { manifestJson := none, htmlFiles := [] } =
      .error "No manifest.json found in project root" ∧
    manifestPluginBuildStart { manifestJson := none, htmlFiles := [] }
      { name := none, version := none, description := none } false 0 =
      .error "No manifest.json found in project root" ∧
    (discoverEntries
      { manifestJson := some
          { name := none, version := none, description := none,
            background := none, content_scripts := none,
            web_accessible_resources := none, action := none,
            browser_action := none, page_action := none, dev_timestamp := none },
        htmlFiles := [] }).isOk = true := by
  refine ⟨?_, ?_, ?_⟩
  · exact ((c9_missing_manifest_is_fatal
      { manifestJson := none, htmlFiles := [] }
      { name := none, version := none, description := none } false 0).1 rfl).1
  · exact ((c9_missing_manifest_is_fatal
      { manifestJson := none, htmlFiles := [] }
      { name := none, version := none, description := none } false 0).1 rfl).2
  · rw [((c9_missing_manifest_is_fatal
      { manifestJson := some
          { name := none, version := none, description := none,
            background := none, content_scripts := none,
            web_accessible_resources := none, action := none,
            browser_action := none, page_action := none, dev_timestamp := none },
        htmlFiles := [] }
      { name := none, version := none, description := none } false 0).2 _ rfl).1]
    rfl

/-- **C5.** On an error-free rebuild: when only content-script entries
changed, every open client is scheduled `reload-background` at once and
`reload-content` after the fixed 500 ms delay, in that order; when only
extension-page entries changed, every open client is scheduled
`reload-page` with no delay.  Non-open clients are sent nothing. -/
theorem c5_reload_message_schedule (changedFiles : List String) (entries : EntriesResult)
    (clients : List WsClient) :
    (entriesChanged changedFiles entries.background = false →
     entriesChanged changedFiles entries.contentScript = true →
     entriesChanged changedFiles entries.extensionPage = false →
      rebuildNotifications false true changedFiles entries clients =
        clients.map (fun client =>
          if client.readyState == wsOPEN then
            [(0, "reload-background"), (500, "reload-content")]
          else [])) ∧
    (entriesChanged changedFiles entries.background = false →
     entriesChanged changedFiles entries.contentScript = false →
     entriesChanged changedFiles entries.extensionPage = true →
      rebuildNotifications false true changedFiles entries clients =
        clients.map (fun client =>
          if client.readyState == wsOPEN then [(0, "reload-page")] else [])) := by
  constructor
  · intro hbg hcs hep
    simp [rebuildNotifications, notifyClientsToReload, clientSends, hbg, hcs, hep]
  · intro hbg hcs hep
    simp [rebuildNotifications, notifyClientsToReload, clientSends, hbg, hcs, hep]

/-- Witness for **C5**: a concrete project with one content-script entry
`src/content` whose source changed, one open and one closed client. -/
theorem c5_reload_message_schedule_witness :
    rebuildNotifications false true ["/proj/src/content/index.ts"]
      { background := [], contentScript := [("src/content/index", "./src/content/index.ts")],
        extensionPage := [("src/popup/index", "./src/popup/index.ts")] }
      [{ readyState := 1 }, { readyState := 3 }] =
      [[(0, "reload-background"), (500, "reload-content")], []] ∧
    rebuildNotifications false true ["/proj/src/popup/index.ts"]
      { background := [], contentScript := [("src/content/index", "./src/content/index.ts")],
        extensionPage := [("src/popup/index", "./src/popup/index.ts")] }
      [{ readyState := 1 }, { readyState := 3 }] =
      [[(0, "reload-page")], []] := by
  constructor
  · rw [(c5_reload_message_schedule ["/proj/src/content/index.ts"]
      { background := [], contentScript := [("src/content/index", "./src/content/index.ts")],
        extensionPage := [("src/popup/index", "./src/popup/index.ts")] }
      [{ readyState := 1 }, { readyState := 3 }]).1 (by decide) (by decide) (by decide)]
    decide
  · rw [(c5_reload_message_schedule ["/proj/src/popup/index.ts"]
      { background := [], contentScript := [("src/content/index", "./src/content/index.ts")],
        extensionPage := [("src/popup/index", "./src/popup/index.ts")] }
      [{ readyState := 1 }, { readyState := 3 }]).2 (by decide) (by decide) (by decide)]
    decide

/-- **C6.** The claim fails on the code: the first signal starts the
shutdown sequence, but a second signal during the in-progress shutdown
hits the `shutdownInProgress` early return and is ignored — it does not
exit immediately.  Both flags are set together, so the `forceExit` exit
branch is unreachable from the initial state (exit then happens only via
the 3-second timeout). -/
theorem c6_second_signal_is_ignored :
    (shutdownSignal initialShutdownState).2 = ShutdownEffect.beginSequence ∧
    shutdownSignal (shutdownSignal initialShutdownState).1 =
      ((shutdownSignal initialShutdownState).1, ShutdownEffect.ignored) ∧
    ShutdownEffect.ignored ≠ ShutdownEffect.exitNow := by
  refine ⟨rfl, rfl, by decide⟩

/-- **C7.** The first observation only records a baseline and never
triggers a reload, whatever the value; and a client observing two
consecutive distinct rebuild timestamps (`Date.now()` values, hence
positive) triggers exactly one reload, on the second observation. -/
theorem c7_poll_reload_on_second_observation :
    (∀ currentTimestamp,
      (checkForUpdates currentTimestamp initialPollState).2 = false) ∧
    (∀ t1 t2 : Nat, t1 ≠ t2 → 0 < t2 →
      (checkForUpdates (.num t1) initialPollState).2 = false ∧
      (checkForUpdates (.num t2)
        (checkForUpdates (.num t1) initialPollState).1).2 = true) := by
  constructor
  · intro currentTimestamp
    rfl
  · intro t1 t2 hne hpos
    refine ⟨rfl, ?_⟩
    have h1 : (checkForUpdates (.num t1) initialPollState).1 =
        { lastTimestamp := .num t1 } := rfl
    rw [h1]
    unfold checkForUpdates
    have hnn : ((JsVal.num t1 : JsVal) == JsVal.null) = false := by simp
    simp only [hnn]
    have ht : truthyVal (.num t2) = true := by
      cases t2 with
      | zero => exact absurd hpos (by decide)
      | succ n => rfl
    have hne2 : ((JsVal.num t2 : JsVal) == JsVal.num t1) = false := by
      simp [hne.symm]
    simp [ht, hne2]

/-- Witness for **C7**: observing the distinct rebuild timestamps `1111`
then `2222` reloads exactly once, on the second tick. -/
theorem c7_poll_reload_witness :
    (checkForUpdates (.num 1111) initialPollState).2 = false ∧
    (checkForUpdates (.num 2222)
      (checkForUpdates (.num 1111) initialPollState).1).2 = true :=
  (c7_poll_reload_on_second_observation).2 1111 2222 (by decide) (by decide)

end BrowserExt
